import Mathlib

set_option maxRecDepth 40000

/-!
Verification model of the HelloAgain Calls service (`src/main.py`).

The embedding covers the two core subsystems of the program:

* the once-per-minute due-call detection and firing engine
  (`run_scheduler_tick`, `_already_called_today`, `DAY_MAP`), and
* the conversational turn endpoint (`twilio_voice_turn`) with its
  reply-generation and speech-synthesis fallbacks.

Instants are modelled as natural numbers: minutes since 1970-01-01 00:00 UTC
(the program works at minute granularity — fractional seconds never influence
any of its decisions, so they are omitted from the model).  Library behaviour
that the program relies on (the proleptic Gregorian calendar used by Python's
`datetime`, `datetime.fromisoformat`/`isoformat`, the Europe/London timezone
rules of `zoneinfo`, and `str.replace` for one-character patterns) is
implemented explicitly below, restricted to the post-1970 instants the program
ever manipulates.
-/

/-- Leap-year test of the proleptic Gregorian calendar (as used by Python's
`datetime`). -/
def isLeap (y : Nat) : Bool :=
  (y % 4 == 0 && y % 100 != 0) || y % 400 == 0

/-- Month lengths, January first, for a leap or non-leap year. -/
def monthLengths (leap : Bool) : List Nat :=
  [31, if leap then 29 else 28, 31, 30, 31, 30, 31, 31, 30, 31, 30, 31]

/-- Number of days in year `y`. -/
def daysInYear (y : Nat) : Nat :=
  if isLeap y then 366 else 365

/-- Number of days in month `m` (1-based) of year `y`. -/
def daysInMonth (y m : Nat) : Nat :=
  (monthLengths (isLeap y)).getD (m - 1) 0

/-- Given the month-length table, a 1-based starting month number and a
0-based day offset into the remaining months, return the (month, day-of-month)
pair, both 1-based. -/
def monthLoop : List Nat → Nat → Nat → Nat × Nat
  | [], m, r => (m, r + 1)
  | len :: rest, m, r =>
    if r < len then (m, r + 1) else monthLoop rest (m + 1) (r - len)

/-- Year-scanning loop of the day-number → calendar-date conversion.  `fuel`
bounds the number of year steps (each step consumes at least 365 days, so any
`fuel > r` suffices). -/
def yearLoop : Nat → Nat → Nat → Nat × Nat × Nat
  | 0, y, _ => (y, 1, 1)
  | fuel + 1, y, r =>
    if r < daysInYear y then
      let md := monthLoop (monthLengths (isLeap y)) 1 r
      (y, md.1, md.2)
    else
      yearLoop fuel (y + 1) (r - daysInYear y)

/-- Convert a day number (days since 1970-01-01) to a calendar date
`(year, month, day)`; months and days are 1-based. -/
def dateOfDay (z : Nat) : Nat × Nat × Nat :=
  yearLoop (z + 1) 1970 z

/-- Number of days from 1970-01-01 to January 1 of year `y` (0 for years up
to 1970; the model only covers post-1970 instants). -/
def yearStart : Nat → Nat
  | 0 => 0
  | y + 1 => if y + 1 ≤ 1970 then 0 else yearStart y + daysInYear y

/-- Convert a calendar date (year ≥ 1970, 1-based month and day) to its day
number (days since 1970-01-01). -/
def dayOfDate (y m d : Nat) : Nat :=
  yearStart y + ((monthLengths (isLeap y)).take (m - 1)).sum + (d - 1)

/-- Weekday of a day number, Monday = 0 … Sunday = 6 (1970-01-01 was a
Thursday). -/
def weekdayOfDay (z : Nat) : Nat :=
  (z + 3) % 7

/-- Numeric value of a decimal digit character, `none` for any other
character. -/
def digitVal (c : Char) : Option Nat :=
  if c.isDigit then some (c.toNat - 48) else none

/-- Two-digit decimal number from two characters. -/
def num2 (a b : Char) : Option Nat := do
  let x ← digitVal a
  let y ← digitVal b
  pure (x * 10 + y)

/-- Four-digit decimal number from four characters. -/
def num4 (a b c d : Char) : Option Nat := do
  let x ← digitVal a
  let y ← digitVal b
  let z ← digitVal c
  let w ← digitVal d
  pure (x * 1000 + y * 100 + z * 10 + w)

/-- Zero-padded two-digit decimal rendering (used by Python's `%02d` /
`isoformat`). -/
def pad2 (n : Nat) : List Char :=
  [Nat.digitChar (n / 10 % 10), Nat.digitChar (n % 10)]

/-- Zero-padded four-digit decimal rendering. -/
def pad4 (n : Nat) : List Char :=
  [Nat.digitChar (n / 1000 % 10), Nat.digitChar (n / 100 % 10),
   Nat.digitChar (n / 10 % 10), Nat.digitChar (n % 10)]

/-- Model of Python's `datetime.fromisoformat` restricted to the shapes the
program feeds it: an aware timestamp
`YYYY-MM-DDTHH:MM:SS±HH:MM` (25 characters).  The result is the UTC instant
in minutes since 1970-01-01 00:00 UTC; strings that denote pre-1970 instants
or are malformed yield `none` (the caller treats any parse failure
identically). -/
def parseIsoChars : List Char → Option Nat
  | [y1, y2, y3, y4, c1, m1, m2, c2, d1, d2, c3, h1, h2, c4, n1, n2, c5,
     s1, s2, sg, o1, o2, c6, o3, o4] =>
    if c1 = '-' ∧ c2 = '-' ∧ c3 = 'T' ∧ c4 = ':' ∧ c5 = ':' ∧ c6 = ':' then
      match num4 y1 y2 y3 y4, num2 m1 m2, num2 d1 d2, num2 h1 h2,
            num2 n1 n2, num2 s1 s2, num2 o1 o2, num2 o3 o4 with
      | some y, some mo, some dy, some h, some mi, some se, some oh, some om =>
        if 1970 ≤ y ∧ 1 ≤ mo ∧ mo ≤ 12 ∧ 1 ≤ dy ∧ dy ≤ daysInMonth y mo ∧
           h < 24 ∧ mi < 60 ∧ se < 60 ∧ oh < 24 ∧ om < 60 then
          let total := dayOfDate y mo dy * 1440 + h * 60 + mi
          let off := oh * 60 + om
          if sg = '+' then
            if off ≤ total then some (total - off) else none
          else if sg = '-' then some (total + off)
          else none
        else none
      | _, _, _, _, _, _, _, _ => none
    else none
  | _ => none

/-- `datetime.fromisoformat` on a string (see `parseIsoChars`). -/
def parseIso (s : String) : Option Nat :=
  parseIsoChars s.toList

/-- Model of Python's `str.replace` for a one-character pattern: every
occurrence of `c` is replaced by `rep`.  The program only ever replaces
one-character patterns (`"Z"`, `"&"`, `"<"`, `">"`). -/
def replaceChar (c : Char) (rep : List Char) : List Char → List Char
  | [] => []
  | x :: xs => (if x = c then rep else [x]) ++ replaceChar c rep xs

/-- `str.replace` for a one-character pattern, on strings. -/
def replaceAll (s : String) (c : Char) (rep : String) : String :=
  String.mk (replaceChar c rep.toList s.toList)

/-- Model of `datetime.isoformat()` of a whole-minute UTC instant:
`YYYY-MM-DDTHH:MM:SS+00:00` (the program stores
`now.astimezone(UTC).isoformat()`). -/
def isoUtc (t : Nat) : String :=
  let ymd := dateOfDay (t / 1440)
  String.mk (pad4 ymd.1 ++ '-' :: pad2 ymd.2.1 ++ '-' :: pad2 ymd.2.2 ++
    'T' :: pad2 (t % 1440 / 60) ++ ':' :: pad2 (t % 60) ++
    [':', '0', '0', '+', '0', '0', ':', '0', '0'])

/-- Day number (since 1970-01-01) of the last Sunday of month `m` (a 31-day
month) of year `y`. -/
def lastSunday (y m : Nat) : Nat :=
  let d := dayOfDate y m 31
  d - (weekdayOfDay d + 1) % 7

/-- Model of the Europe/London daylight-saving rule applied by `zoneinfo`
(post-1996 EU rule): summer time runs from 01:00 UTC on the last Sunday of
March to 01:00 UTC on the last Sunday of October.  `t` is a UTC instant in
minutes since 1970-01-01 00:00 UTC. -/
def isBST (t : Nat) : Bool :=
  let y := (dateOfDay (t / 1440)).1
  lastSunday y 3 * 1440 + 60 ≤ t && t < lastSunday y 10 * 1440 + 60

/-- Offset, in minutes, of the Europe/London local clock from UTC at UTC
instant `t`. -/
def ukOffset (t : Nat) : Nat :=
  if isBST t then 60 else 0

/-- Europe/London local clock reading of UTC instant `t`, as minutes since
1970-01-01 00:00 (local). -/
def ukMinutes (t : Nat) : Nat :=
  t + ukOffset t

/-- The Europe/London calendar date of UTC instant `t`
(`datetime.astimezone(UK_TZ).date()`). -/
def ukDate (t : Nat) : Nat × Nat × Nat :=
  dateOfDay (ukMinutes t / 1440)

/-- `now.weekday()` for `now = datetime.now(UK_TZ)` at UTC instant `t`
(Monday = 0). -/
def ukDow (t : Nat) : Nat :=
  weekdayOfDay (ukMinutes t / 1440)

/-- `f"{now.hour:02d}:{now.minute:02d}"` for `now = datetime.now(UK_TZ)` at
UTC instant `t`: the zero-padded `HH:MM` rendering of the current
Europe/London wall-clock minute. -/
def nowHHMM (t : Nat) : String :=
  String.mk (pad2 (ukMinutes t % 1440 / 60) ++ ':' :: pad2 (ukMinutes t % 60))

/-- Model of Python's `str.strip()` with no argument: remove leading and
trailing whitespace. -/
def pyStrip (s : String) : String :=
  String.mk (((s.toList.dropWhile Char.isWhitespace).reverse.dropWhile
    Char.isWhitespace).reverse)

/-- `DAY_MAP` from `src/main.py`: the day-of-week symbol table,
Monday = 0 … Sunday = 6. -/
def DAY_MAP (d : String) : Option Nat :=
  if d = "Mon" then some 0
  else if d = "Tue" then some 1
  else if d = "Wed" then some 2
  else if d = "Thu" then some 3
  else if d = "Fri" then some 4
  else if d = "Sat" then some 5
  else if d = "Sun" then some 6
  else none

/-- A row of the `call_schedule` table, with the columns
`run_scheduler_tick` selects.  Nullable text columns are `Option String`. -/
structure Schedule where
  id : Nat
  user_id : Nat
  day_of_week : Option String
  call_time : Option String
  enabled : Bool
  last_called_at : Option String
deriving DecidableEq

/-- `_already_called_today` from `src/main.py`: parse `last_called_at`
(after replacing `"Z"` with `"+00:00"`), convert it to Europe/London, and
compare its calendar date with `today`; any parse failure, `None` or the
empty string yields `False`. -/
def already_called_today (last_called_at : Option String)
    (today : Nat × Nat × Nat) : Bool :=
  match last_called_at with
  | none => false
  | some s =>
    if s = "" then false
    else
      match parseIso (replaceAll s 'Z' "+00:00") with
      | none => false
      | some u => decide (ukDate u = today)

/-- `_parse_hhmm` from `src/main.py`.  It raises (`none`) unless the string
splits on `':'` into exactly two parts; it is defined here for completeness —
nothing in the detection path uses it (it is dead code in the source). -/
def parse_hhmm (t : String) : Option (Nat × Nat) :=
  match ((pyStrip t).splitOn ":").map (fun p => p.toNat?) with
  | [some h, some m] => some (h, m)
  | _ => none

/-- The per-row due test from the loop body of `run_scheduler_tick`
(lines 113–126 of `src/main.py`): strip the day and time strings, require the
day symbol to be in `DAY_MAP` and map to today's weekday, require the stripped
time string to equal the zero-padded `HH:MM` rendering of now, and require
that the schedule has not already fired on today's Europe/London date. -/
def isDue (t : Nat) (s : Schedule) : Bool :=
  let day := pyStrip (s.day_of_week.getD "")
  let ct := pyStrip (s.call_time.getD "")
  match DAY_MAP day with
  | none => false
  | some d =>
    d == ukDow t && ct == nowHHMM t &&
      !(already_called_today s.last_called_at (ukDate t))

/-- The due-call detection of `run_scheduler_tick`: the store returns the
rows with `enabled = true` (the `.eq("enabled", True)` server-side filter),
and the loop keeps the rows passing `isDue`. -/
def detectDue (t : Nat) (table : List Schedule) : List Schedule :=
  (table.filter (fun s => s.enabled)).filter (isDue t)

/-- The `last_called_at` update a firing performs on a schedule row
(`supabase.table("call_schedule").update({...})`): the current UTC instant,
rendered by `isoformat`. -/
def markFired (t : Nat) (s : Schedule) : Schedule :=
  { s with last_called_at := some (isoUtc t) }

/-- A row of the `users` table, with the columns the firing loop selects. -/
structure User where
  id : Nat
  first_name : Option String
  phone_number : Option String
  companion_name : Option String
  companion_voice : Option String
  interests : Option String
deriving DecidableEq

/-- A row inserted into the `call_logs` table by the firing loop. -/
structure CallLog where
  user_id : Nat
  call_time : String
  duration_seconds : Nat
  answered : Bool
  recording_url : Option String
  summary : String
  mood : String
  topics : String
deriving DecidableEq

/-- The store state a scheduler tick reads and writes: the `call_schedule`
table and the `call_logs` table. -/
structure TickState where
  call_schedule : List Schedule
  call_logs : List CallLog
deriving DecidableEq

/-- The external dependencies the program talks to. -/
inductive Dep where
  | scheduleStore
  | userStore
  | callLogStore
  | replyGen
  | synth
deriving DecidableEq

/-- One outbound call to an external dependency, with the request timeout
the source configures for it (`none` when the source sets no explicit
timeout). -/
structure ExtCall where
  dep : Dep
  timeout : Option Nat
deriving DecidableEq

/-- The `call_logs` row built at a firing (lines 151–160 of `src/main.py`). -/
def mkLog (t : Nat) (s : Schedule) (u : User) : CallLog :=
  { user_id := s.user_id
    call_time := isoUtc t
    duration_seconds := 0
    answered := false
    recording_url := none
    summary := "Scheduler triggered (Twilio not yet connected)."
    mood := "neutral"
    topics := u.interests.getD "" }

/-- The two store writes one successful firing performs, in source order:
append the call-log row, then set `last_called_at` on the schedule row with
the matching id. -/
def applyFire (t : Nat) (s : Schedule) (u : User) (st : TickState) : TickState :=
  { call_schedule := st.call_schedule.map
      (fun r => if r.id = s.id then markFired t r else r)
    call_logs := st.call_logs ++ [mkLog t s u] }

/-- Result of running (part of) a scheduler tick: the store state afterwards,
whether the tick ran to completion (`ok = false` means an exception escaped
to the outer loop's handler), and the trace of outbound dependency calls. -/
structure TickRun where
  state : TickState
  ok : Bool
  calls : List ExtCall
deriving DecidableEq

/-- The firing loop of `run_scheduler_tick` (lines 133–165 of
`src/main.py`), over the detected due list.  For each due schedule the user
row is fetched; there is no per-schedule exception handler in the source, so
a failed fetch (modelled by `fetchUser` returning `none`) propagates
immediately: the loop stops, earlier writes persist, and the remaining due
schedules are not processed in this tick.  Store writes themselves are
modelled as succeeding. -/
def processDue (fetchUser : Nat → Option User) (t : Nat) :
    List Schedule → TickState → TickRun
  | [], st => ⟨st, true, []⟩
  | s :: rest, st =>
    match fetchUser s.user_id with
    | none => ⟨st, false, [⟨Dep.userStore, none⟩]⟩
    | some u =>
      let r := processDue fetchUser t rest (applyFire t s u st)
      ⟨r.state, r.ok,
        ⟨Dep.userStore, none⟩ :: ⟨Dep.callLogStore, none⟩ ::
          ⟨Dep.scheduleStore, none⟩ :: r.calls⟩

/-- Effect of one successful firing, for stating what the loop does to the
store: fetch the user and, when the fetch succeeds, apply the two writes. -/
def fireOne (fetchUser : Nat → Option User) (t : Nat)
    (st : TickState) (s : Schedule) : TickState :=
  match fetchUser s.user_id with
  | none => st
  | some u => applyFire t s u st

/-- `run_scheduler_tick` from `src/main.py`: fetch the enabled schedules,
filter the due ones, and run the firing loop.  The outer `startup` loop
catches any exception a tick raises (so `ok = false` never stops the next
tick) — that catch is the caller's behaviour, reflected in `TickRun.ok`
being data rather than a propagating failure. -/
def run_scheduler_tick (fetchUser : Nat → Option User) (t : Nat)
    (st : TickState) : TickRun :=
  let due := detectDue t st.call_schedule
  let r := processDue fetchUser t due st
  ⟨r.state, r.ok, ⟨Dep.scheduleStore, none⟩ :: r.calls⟩

/-- The `startup` background loop (lines 176–183 of `src/main.py`), run over
a finite prefix of ticks: each iteration runs one tick and continues to the
next regardless of whether the tick failed (`except Exception: ... continue`
semantics — the `ok` flag is logged and dropped). -/
def startup_loop (fetchUser : Nat → Option User) (ts : List Nat)
    (st : TickState) : TickState :=
  ts.foldl (fun acc t => (run_scheduler_tick fetchUser t acc).state) st

/-- The HTTP response a turn-endpoint branch returns: status code, media
type and body (every branch of the source builds
`Response(content=twiml, media_type="application/xml")`, which FastAPI
serves with status 200). -/
structure TurnResponse where
  status : Nat
  media_type : String
  body : String
deriving DecidableEq

/-- Result of one invocation of the turn endpoint: the HTTP response and the
trace of outbound dependency calls the handler made. -/
structure TurnRun where
  resp : TurnResponse
  calls : List ExtCall
deriving DecidableEq

/-- The instruction document returned for an empty `SpeechResult`
(lines 221–225 of `src/main.py`). -/
def emptySpeechTwiml : String :=
  "<?xml version=\"1.0\" encoding=\"UTF-8\"?>\n<Response>\n  <Say>Sorry love, I didn’t quite catch that.</Say>\n  <Redirect method=\"POST\">/twilio/voice/inbound</Redirect>\n</Response>"

/-- `reply_text` as computed from the OpenAI call outcome (lines 229–240):
the generated text, stripped, on success; the fixed apology line when the
call raised. -/
def reply_text_for (openai_result : Option String) : String :=
  match openai_result with
  | some out => pyStrip out
  | none => "Sorry love, I’m having a little moment. How have you been today?"

/-- `reply_for_say` (line 267): the reply with `"&"` replaced by `"and"` and
`"<"`, `">"` removed, so it is safe inside the `<Say>` element. -/
def reply_for_say (reply_text : String) : String :=
  replaceAll (replaceAll (replaceAll reply_text '&' "and") '<' "") '>' ""

/-- The instruction document of the synthesis-failure fallback
(lines 268–272): speak the sanitized reply via Twilio `<Say>` and redirect to
the inbound greeting endpoint. -/
def sayFallbackTwiml (reply : String) : String :=
  "<?xml version=\"1.0\" encoding=\"UTF-8\"?>\n<Response>\n  <Say>" ++ reply ++ "</Say>\n  <Redirect method=\"POST\">/twilio/voice/inbound</Redirect>\n</Response>"

/-- The instruction document of the success path (lines 282–293): play the
cached reply audio, gather again, fall back to a redirect. -/
def playGatherTwiml : String :=
  "<?xml version=\"1.0\" encoding=\"UTF-8\"?>\n<Response>\n  <Play>https://helloagain-calls-production.up.railway.app/audio/last-reply.mp3</Play>\n\n  <Gather input=\"speech\" action=\"/twilio/voice/turn\" method=\"POST\" speechTimeout=\"auto\" timeout=\"6\">\n    <Say>And?</Say>\n  </Gather>\n\n  <Say>Sorry, I didn’t catch that. Would you like to say a bit more?</Say>\n  <Redirect method=\"POST\">/twilio/voice/inbound</Redirect>\n</Response>\n"

/-- `twilio_voice_turn` from `src/main.py` (lines 211–294).  Inputs: the
`SpeechResult` form field (`none` when absent), the outcome of the OpenAI
reply call (`none` = the call raised, caught at line 238), and the outcome of
the ElevenLabs synthesis call (`none` = the request raised or returned a
non-success status, caught at line 264; `some` carries the returned bytes,
opaque here).  The model assumes the configuration environment variables are
present and form parsing succeeds — both outside the generator/synthesizer
failure modes this endpoint handles.  The OpenAI client is constructed with
no explicit timeout (line 36/230); the ElevenLabs request uses
`httpx.AsyncClient(timeout=30.0)` (line 260). -/
def twilio_voice_turn (speech_result : Option String)
    (openai_result : Option String) (tts_result : Option String) : TurnRun :=
  let user_text := pyStrip (speech_result.getD "")
  if user_text = "" then
    ⟨⟨200, "application/xml", emptySpeechTwiml⟩, []⟩
  else
    let reply_text := reply_text_for openai_result
    let calls := [⟨Dep.replyGen, none⟩, ⟨Dep.synth, some 30⟩]
    match tts_result with
    | none =>
      ⟨⟨200, "application/xml", sayFallbackTwiml (reply_for_say reply_text)⟩,
        calls⟩
    | some _ =>
      ⟨⟨200, "application/xml", playGatherTwiml⟩, calls⟩

/-- Decides whether a string is exactly the canonical zero-padded `HH:MM`
rendering of some valid wall-clock minute (two digit characters, a colon,
two digit characters, with the hour below 24 and the minute below 60). -/
def isCanonHHMM (s : String) : Bool :=
  match s.toList with
  | [a, b, c, d, e] =>
    decide (c = ':') &&
      (match num2 a b, num2 d e with
       | some h, some m => decide (h < 24) && decide (m < 60)
       | _, _ => false)
  | _ => false

/-- The transform the specification claims for the synthesis-failure `<Say>`
fallback, stated in the spec's own words ("with the markup-breaking
characters `&`, `<`, and `>` removed from the text"): it deletes those three
characters.  Kept separate from `reply_for_say`, which is what the source
does, so the two can be compared. -/
def specRemovedMarkup (r : String) : String :=
  String.mk (r.toList.filter (fun c => !(c == '&' || c == '<' || c == '>')))

/-- Monday 2025-01-06, 09:00 UTC — a winter instant, so the Europe/London
wall clock also reads Monday 09:00. -/
def tick0 : Nat := dayOfDate 2025 1 6 * 1440 + 9 * 60

/-- A well-formed enabled schedule, due Mondays at 09:00, never fired. -/
def schedMon : Schedule := ⟨1, 7, some "Mon", some "09:00", true, none⟩

/-- A second well-formed enabled schedule for a different user, also due
Mondays at 09:00. -/
def schedMon2 : Schedule := ⟨4, 8, some "Mon", some "09:00", true, none⟩

/-- A schedule with a malformed day-of-week value. -/
def schedFunday : Schedule := ⟨2, 9, some "Funday", some "09:00", true, none⟩

/-- A schedule whose stored time carries a leading space: not the canonical
`HH:MM` rendering, but equal to it after stripping. -/
def schedPadded : Schedule := ⟨3, 9, some "Mon", some " 09:00", true, none⟩

/-- A schedule whose stored time `"9:00"` is not zero-padded. -/
def schedNine : Schedule := ⟨6, 7, some "Mon", some "9:00", true, none⟩

/-- A schedule whose `last_called_at` is non-empty but not a parseable ISO
timestamp. -/
def schedGarbage : Schedule := ⟨5, 7, some "Mon", some "09:00", true, some "not-a-timestamp"⟩

/-- A user row for user 8. -/
def userBeryl : User :=
  ⟨8, some "Beryl", some "+441234567890", some "Margaret", some "voice-1", some "tea"⟩

/-- A user-store stub that succeeds only for user 8 (any other fetch
raises). -/
def fetchOnly8 : Nat → Option User :=
  fun uid => if uid = 8 then some userBeryl else none

/-- A store state with two schedules both due at `tick0`. -/
def tickState0 : TickState := ⟨[schedMon, schedMon2], []⟩


set_option maxRecDepth 4000 in
theorem monthLoop_sum_leap : ∀ r, r < 366 →
    ((monthLengths true).take ((monthLoop (monthLengths true) 1 r).1 - 1)).sum
        + ((monthLoop (monthLengths true) 1 r).2 - 1) = r
      ∧ 1 ≤ (monthLoop (monthLengths true) 1 r).1
      ∧ (monthLoop (monthLengths true) 1 r).1 ≤ 12
      ∧ 1 ≤ (monthLoop (monthLengths true) 1 r).2
      ∧ (monthLoop (monthLengths true) 1 r).2
          ≤ (monthLengths true).getD ((monthLoop (monthLengths true) 1 r).1 - 1) 0 := by
  decide

set_option maxRecDepth 4000 in
theorem monthLoop_sum_common : ∀ r, r < 365 →
    ((monthLengths false).take ((monthLoop (monthLengths false) 1 r).1 - 1)).sum
        + ((monthLoop (monthLengths false) 1 r).2 - 1) = r
      ∧ 1 ≤ (monthLoop (monthLengths false) 1 r).1
      ∧ (monthLoop (monthLengths false) 1 r).1 ≤ 12
      ∧ 1 ≤ (monthLoop (monthLengths false) 1 r).2
      ∧ (monthLoop (monthLengths false) 1 r).2
          ≤ (monthLengths false).getD ((monthLoop (monthLengths false) 1 r).1 - 1) 0 := by
  decide

theorem daysInYear_ge : ∀ y, 365 ≤ daysInYear y := by
  intro y
  unfold daysInYear
  split <;> omega

theorem yearStart_succ (y : Nat) (h : 1970 ≤ y) :
    yearStart (y + 1) = yearStart y + daysInYear y := by
  conv_lhs => rw [yearStart]
  rw [if_neg (by omega)]

theorem yearLoop_spec : ∀ (fuel y r : Nat), r < fuel → 1970 ≤ y →
    dayOfDate (yearLoop fuel y r).1 (yearLoop fuel y r).2.1 (yearLoop fuel y r).2.2
        = yearStart y + r
      ∧ 1970 ≤ (yearLoop fuel y r).1
      ∧ 1 ≤ (yearLoop fuel y r).2.1 ∧ (yearLoop fuel y r).2.1 ≤ 12
      ∧ 1 ≤ (yearLoop fuel y r).2.2
      ∧ (yearLoop fuel y r).2.2
          ≤ daysInMonth (yearLoop fuel y r).1 (yearLoop fuel y r).2.1 := by
  intro fuel
  induction fuel with
  | zero => intro y r hr _; omega
  | succ n ih =>
    intro y r hr hy
    by_cases h : r < daysInYear y
    · have hmonth :
          ((monthLengths (isLeap y)).take
              ((monthLoop (monthLengths (isLeap y)) 1 r).1 - 1)).sum
            + ((monthLoop (monthLengths (isLeap y)) 1 r).2 - 1) = r
          ∧ 1 ≤ (monthLoop (monthLengths (isLeap y)) 1 r).1
          ∧ (monthLoop (monthLengths (isLeap y)) 1 r).1 ≤ 12
          ∧ 1 ≤ (monthLoop (monthLengths (isLeap y)) 1 r).2
          ∧ (monthLoop (monthLengths (isLeap y)) 1 r).2
              ≤ (monthLengths (isLeap y)).getD
                  ((monthLoop (monthLengths (isLeap y)) 1 r).1 - 1) 0 := by
        rcases hL : isLeap y with _ | _
        · exact monthLoop_sum_common r (by unfold daysInYear at h; rw [hL] at h; simpa using h)
        · exact monthLoop_sum_leap r (by unfold daysInYear at h; rw [hL] at h; simpa using h)
      have hstep : yearLoop (n + 1) y r =
          (y, (monthLoop (monthLengths (isLeap y)) 1 r).1,
              (monthLoop (monthLengths (isLeap y)) 1 r).2) := by
        rw [yearLoop, if_pos h]
      rw [hstep]
      dsimp only
      refine ⟨?_, by omega, hmonth.2.1, hmonth.2.2.1, hmonth.2.2.2.1, ?_⟩
      · unfold dayOfDate
        have h1 := hmonth.1
        omega
      · unfold daysInMonth
        exact hmonth.2.2.2.2
    · have h365 := daysInYear_ge y
      have hstep : yearLoop (n + 1) y r = yearLoop n (y + 1) (r - daysInYear y) := by
        rw [yearLoop, if_neg h]
      rw [hstep]
      have := ih (y + 1) (r - daysInYear y) (by omega) (by omega)
      rcases this with ⟨h1, h2, h3⟩
      refine ⟨?_, by omega, h3⟩
      rw [h1, yearStart_succ y hy]
      omega

theorem dateOfDay_spec (z : Nat) :
    dayOfDate (dateOfDay z).1 (dateOfDay z).2.1 (dateOfDay z).2.2 = z
      ∧ 1970 ≤ (dateOfDay z).1
      ∧ 1 ≤ (dateOfDay z).2.1 ∧ (dateOfDay z).2.1 ≤ 12
      ∧ 1 ≤ (dateOfDay z).2.2
      ∧ (dateOfDay z).2.2 ≤ daysInMonth (dateOfDay z).1 (dateOfDay z).2.1 := by
  have h := yearLoop_spec (z + 1) 1970 z (by omega) (by omega)
  have h0 : yearStart 1970 = 0 := by decide
  unfold dateOfDay
  rw [h0] at h
  simpa using h

theorem digitVal_digitChar : ∀ d, d < 10 → digitVal (Nat.digitChar d) = some d := by
  decide

theorem num2_pad2 (n : Nat) (h : n < 100) :
    num2 (Nat.digitChar (n / 10 % 10)) (Nat.digitChar (n % 10)) = some n := by
  unfold num2
  rw [digitVal_digitChar _ (by omega), digitVal_digitChar _ (by omega)]
  show some (n / 10 % 10 * 10 + n % 10) = some n
  exact congrArg some (by omega)

theorem num4_pad4 (n : Nat) (h : n < 10000) :
    num4 (Nat.digitChar (n / 1000 % 10)) (Nat.digitChar (n / 100 % 10))
      (Nat.digitChar (n / 10 % 10)) (Nat.digitChar (n % 10)) = some n := by
  unfold num4
  rw [digitVal_digitChar _ (by omega), digitVal_digitChar _ (by omega),
    digitVal_digitChar _ (by omega), digitVal_digitChar _ (by omega)]
  show some (n / 1000 % 10 * 1000 + n / 100 % 10 * 100 + n / 10 % 10 * 10 + n % 10) = some n
  exact congrArg some (by omega)

theorem daysInMonth_le_31 (y m : Nat) : daysInMonth y m ≤ 31 := by
  unfold daysInMonth
  have h12 : ∀ (b : Bool) i, i < 12 → (monthLengths b).getD i 0 ≤ 31 := by decide
  by_cases h : m - 1 < 12
  · exact h12 _ _ h
  · rw [List.getD_eq_default]
    · omega
    · cases isLeap y <;> simp [monthLengths] <;> omega

theorem parseIso_isoUtc (t : Nat) (hy : (dateOfDay (t / 1440)).1 < 10000) :
    parseIso (isoUtc t) = some t := by
  obtain ⟨hday, h1970, hm1, hm12, hd1, hdm⟩ := dateOfDay_spec (t / 1440)
  unfold parseIso isoUtc
  simp only [String.toList, pad4, pad2, List.cons_append, List.nil_append]
  rw [parseIsoChars]
  rw [if_pos (by exact ⟨rfl, rfl, rfl, rfl, rfl, rfl⟩)]
  rw [num4_pad4 _ hy,
    num2_pad2 ((dateOfDay (t / 1440)).2.1) (by omega),
    num2_pad2 ((dateOfDay (t / 1440)).2.2)
      (by have := daysInMonth_le_31 (dateOfDay (t / 1440)).1 (dateOfDay (t / 1440)).2.1; omega),
    num2_pad2 (t % 1440 / 60) (by omega),
    num2_pad2 (t % 60) (by omega)]
  have h00 : num2 '0' '0' = some 0 := by decide
  rw [h00]
  dsimp only
  rw [if_pos ⟨h1970, hm1, hm12, hd1, hdm, by omega, by omega, by omega, by omega, by omega⟩]
  rw [if_pos rfl, if_pos (Nat.zero_le _)]
  rw [hday]
  exact congrArg some (by omega)

theorem replaceChar_of_not_mem (c : Char) (rep : List Char) :
    ∀ l : List Char, c ∉ l → replaceChar c rep l = l := by
  intro l
  induction l with
  | nil => intro _; rfl
  | cons x xs ih =>
    intro h
    have hx : ¬x = c := fun hxc => h (by simp [hxc])
    simp only [replaceChar, if_neg hx, List.singleton_append]
    rw [ih (fun hm => h (List.mem_cons_of_mem _ hm))]

theorem mem_of_mem_replaceChar (c : Char) (rep : List Char) :
    ∀ l x, x ∈ replaceChar c rep l → x ∈ rep ∨ (x ∈ l ∧ x ≠ c) := by
  intro l
  induction l with
  | nil => intro x h; simp [replaceChar] at h
  | cons a as ih =>
    intro x h
    simp only [replaceChar, List.mem_append] at h
    rcases h with h | h
    · by_cases ha : a = c
      · rw [if_pos ha] at h
        exact Or.inl h
      · rw [if_neg ha] at h
        simp only [List.mem_singleton] at h
        subst h
        exact Or.inr ⟨List.mem_cons_self _ _, ha⟩
    · rcases ih x h with h' | ⟨h1, h2⟩
      · exact Or.inl h'
      · exact Or.inr ⟨List.mem_cons_of_mem _ h1, h2⟩

theorem digitChar_ne_Z : ∀ d, d < 10 → Nat.digitChar d ≠ 'Z' := by decide

theorem Z_not_mem_isoUtc (t : Nat) : 'Z' ∉ (isoUtc t).toList := by
  intro h
  simp only [isoUtc, String.toList, pad4, pad2, List.cons_append, List.nil_append,
    List.mem_cons, List.not_mem_nil, or_false] at h
  rcases h with h | h | h | h | h | h | h | h | h | h | h | h | h | h | h | h |
    h | h | h | h | h | h | h | h | h
  all_goals first
    | (exact digitChar_ne_Z _ (by omega) h.symm)
    | simp at h

theorem replaceAll_isoUtc (t : Nat) :
    replaceAll (isoUtc t) 'Z' "+00:00" = isoUtc t := by
  unfold replaceAll
  rw [replaceChar_of_not_mem _ _ _ (Z_not_mem_isoUtc t)]
  rfl

theorem isoUtc_ne_empty (t : Nat) : isoUtc t ≠ "" := by
  intro h
  have h2 : (isoUtc t).data.length = 0 := by rw [h]; rfl
  simp [isoUtc, pad4, pad2] at h2

theorem already_called_today_isoUtc (t : Nat)
    (hy : (dateOfDay (t / 1440)).1 < 10000) (d : Nat × Nat × Nat) :
    already_called_today (some (isoUtc t)) d = decide (ukDate t = d) := by
  show (if isoUtc t = "" then false
    else
      match parseIso (replaceAll (isoUtc t) 'Z' "+00:00") with
      | none => false
      | some u => decide (ukDate u = d)) = decide (ukDate t = d)
  rw [if_neg (isoUtc_ne_empty t), replaceAll_isoUtc, parseIso_isoUtc t hy]

theorem isDue_iff (t : Nat) (s : Schedule) :
    isDue t s = true ↔
      DAY_MAP (pyStrip (s.day_of_week.getD "")) = some (ukDow t) ∧
      pyStrip (s.call_time.getD "") = nowHHMM t ∧
      already_called_today s.last_called_at (ukDate t) = false := by
  unfold isDue
  cases h : DAY_MAP (pyStrip (s.day_of_week.getD "")) with
  | none => simp [h]
  | some d =>
    simp only [h, Bool.and_eq_true, beq_iff_eq, Bool.not_eq_true',
      Option.some.injEq]
    constructor
    · rintro ⟨⟨h1, h2⟩, h3⟩
      exact ⟨h1, h2, h3⟩
    · rintro ⟨h1, h2, h3⟩
      exact ⟨⟨h1, h2⟩, h3⟩

theorem mem_detectDue (t : Nat) (table : List Schedule) (s : Schedule) :
    s ∈ detectDue t table ↔
      s ∈ table ∧ s.enabled = true ∧
      DAY_MAP (pyStrip (s.day_of_week.getD "")) = some (ukDow t) ∧
      pyStrip (s.call_time.getD "") = nowHHMM t ∧
      already_called_today s.last_called_at (ukDate t) = false := by
  unfold detectDue
  simp only [List.mem_filter, isDue_iff]
  tauto

theorem isCanonHHMM_nowHHMM (t : Nat) : isCanonHHMM (nowHHMM t) = true := by
  unfold isCanonHHMM
  rw [show (nowHHMM t).toList =
      pad2 (ukMinutes t % 1440 / 60) ++ ':' :: pad2 (ukMinutes t % 60) from rfl]
  simp only [pad2, List.cons_append, List.nil_append]
  rw [num2_pad2 _ (show ukMinutes t % 1440 / 60 < 100 by omega),
    num2_pad2 _ (show ukMinutes t % 60 < 100 by omega)]
  simp only [Bool.and_eq_true, decide_eq_true_eq, true_and]
  exact ⟨by omega, by omega⟩

theorem ne_nowHHMM_of_not_canon (t : Nat) (x : String)
    (h : isCanonHHMM x = false) : x ≠ nowHHMM t := by
  intro he
  rw [he, isCanonHHMM_nowHHMM] at h
  cases h

theorem reply_for_say_no_markup (r : String) :
    ∀ x ∈ (reply_for_say r).toList, x ≠ '&' ∧ x ≠ '<' ∧ x ≠ '>' := by
  intro x hx
  have hx3 : x ∈ replaceChar '>' [] (replaceChar '<' []
      (replaceChar '&' "and".toList r.toList)) := hx
  rcases mem_of_mem_replaceChar _ _ _ _ hx3 with h | ⟨hx2, hgt⟩
  · cases h
  rcases mem_of_mem_replaceChar _ _ _ _ hx2 with h | ⟨hx1, hlt⟩
  · cases h
  rcases mem_of_mem_replaceChar _ _ _ _ hx1 with h | ⟨_, hamp⟩
  · have h' : x ∈ ['a', 'n', 'd'] := h
    simp only [List.mem_cons, List.not_mem_nil, or_false] at h'
    rcases h' with h' | h' | h' <;> subst h' <;>
      exact ⟨by decide, by decide, by decide⟩
  · exact ⟨hamp, hlt, hgt⟩

theorem processDue_fail_mid (fetchUser : Nat → Option User) (t : Nat) :
    ∀ (pre : List Schedule) (f : Schedule) (post : List Schedule) (st : TickState),
      (∀ s ∈ pre, (fetchUser s.user_id).isSome) →
      fetchUser f.user_id = none →
      (processDue fetchUser t (pre ++ f :: post) st).state
          = pre.foldl (fireOne fetchUser t) st
        ∧ (processDue fetchUser t (pre ++ f :: post) st).ok = false := by
  intro pre
  induction pre with
  | nil =>
    intro f post st _ hf
    simp [List.nil_append, List.foldl_nil, processDue, hf]
  | cons s pre ih =>
    intro f post st hpre hf
    have hs := hpre s (List.mem_cons_self _ _)
    cases hu : fetchUser s.user_id with
    | none => rw [hu] at hs; cases hs
    | some u =>
      have hrest : ∀ s' ∈ pre, (fetchUser s'.user_id).isSome :=
        fun s' hs' => hpre s' (List.mem_cons_of_mem _ hs')
      have hind := ih f post (applyFire t s u st) hrest hf
      simp only [List.cons_append, processDue, hu, List.foldl_cons]
      have hfire : fireOne fetchUser t st s = applyFire t s u st := by
        unfold fireOne
        rw [hu]
      rw [hfire]
      exact hind

theorem processDue_calls_store_only (fetchUser : Nat → Option User) (t : Nat) :
    ∀ (l : List Schedule) (st : TickState),
      ∀ c ∈ (processDue fetchUser t l st).calls,
        c.dep ≠ Dep.replyGen ∧ c.dep ≠ Dep.synth := by
  intro l
  induction l with
  | nil =>
    intro st c hc
    cases hc
  | cons s rest ih =>
    intro st c hc
    cases hu : fetchUser s.user_id with
    | none =>
      simp only [processDue, hu, List.mem_singleton] at hc
      subst hc
      exact ⟨by decide, by decide⟩
    | some u =>
      simp only [processDue, hu, List.mem_cons] at hc
      rcases hc with hc | hc | hc | hc
      · subst hc; exact ⟨by decide, by decide⟩
      · subst hc; exact ⟨by decide, by decide⟩
      · subst hc; exact ⟨by decide, by decide⟩
      · exact ih (applyFire t s u st) c hc

theorem tick_calls_store_only (fetchUser : Nat → Option User) (t : Nat)
    (st : TickState) :
    ∀ c ∈ (run_scheduler_tick fetchUser t st).calls,
      c.dep ≠ Dep.replyGen ∧ c.dep ≠ Dep.synth := by
  intro c hc
  simp only [run_scheduler_tick, List.mem_cons] at hc
  rcases hc with hc | hc
  · subst hc; exact ⟨by decide, by decide⟩
  · exact processDue_calls_store_only fetchUser t _ st c hc

/-- C1: due-call detection includes a schedule exactly when it is enabled,
its (stripped) day-of-week symbol maps through `DAY_MAP`
(Monday = 0 … Sunday = 6) to now's Europe/London weekday, its (stripped)
call-time string equals now's zero-padded `HH:MM` rendering — exact match at
minute granularity, no tolerance window — and it has not already fired on
now's Europe/London calendar date (decided by parsing `last_called_at`,
converting it from UTC to Europe/London and comparing calendar dates). -/
theorem due_detection_characterization (t : Nat) (table : List Schedule)
    (s : Schedule) :
    s ∈ detectDue t table ↔
      s ∈ table ∧ s.enabled = true ∧
      DAY_MAP (pyStrip (s.day_of_week.getD "")) = some (ukDow t) ∧
      pyStrip (s.call_time.getD "") = nowHHMM t ∧
      already_called_today s.last_called_at (ukDate t) = false :=
  mem_detectDue t table s

/-- C3: detection is deterministic — identical inputs give identical output —
and once a schedule's `last_called_at` is set to the current UTC instant
(what a firing stores), any detection at a later instant falling on the same
Europe/London calendar date excludes that schedule, whatever the rest of the
table holds. -/
theorem detection_idempotent_and_fired_excluded
    (t t' : Nat) (s : Schedule) (table : List Schedule)
    (hyear : (dateOfDay (t / 1440)).1 < 10000)
    (_hlater : t ≤ t')
    (hsame : ukDate t' = ukDate t) :
    detectDue t table = detectDue t table ∧
    markFired t s ∉ detectDue t' table := by
  refine ⟨rfl, ?_⟩
  intro hmem
  have hfired := ((mem_detectDue t' table (markFired t s)).mp hmem).2.2.2.2
  rw [show (markFired t s).last_called_at = some (isoUtc t) from rfl,
    already_called_today_isoUtc t hyear (ukDate t'), hsame] at hfired
  simp at hfired

/-- Witness for C3 at Monday 2025-01-06: fired at 09:00 UTC, the schedule is
excluded at 09:01 the same day. -/
theorem detection_idempotent_and_fired_excluded_witness :
    (dateOfDay (tick0 / 1440)).1 < 10000 ∧ tick0 ≤ tick0 + 1 ∧
    ukDate (tick0 + 1) = ukDate tick0 ∧
    markFired tick0 schedMon ∉ detectDue (tick0 + 1) [markFired tick0 schedMon] :=
  ⟨by decide, by decide, by decide,
    (detection_idempotent_and_fired_excluded tick0 (tick0 + 1) schedMon
      [markFired tick0 schedMon] (by decide) (by decide) (by decide)).2⟩

/-- C7: a malformed row — a day symbol outside `DAY_MAP` (such as
`"Funday"`), or a stored time that is not a canonical `HH:MM` rendering of
any wall-clock minute — never makes detection fail: the row is simply
excluded, and the rest of the table is evaluated exactly as it would be
without it.  (Detection is total in the source as well: the day test is a
dictionary-membership check and the time test a string comparison; nothing in
the loop raises.) -/
theorem malformed_rows_skipped (t : Nat) (l1 l2 : List Schedule)
    (bad : Schedule)
    (hbad : DAY_MAP (pyStrip (bad.day_of_week.getD "")) = none ∨
            isCanonHHMM (pyStrip (bad.call_time.getD "")) = false) :
    detectDue t (l1 ++ bad :: l2) = detectDue t l1 ++ detectDue t l2 := by
  have hdue : isDue t bad = false := by
    rw [Bool.eq_false_iff]
    intro h
    obtain ⟨h1, h2, _⟩ := (isDue_iff t bad).mp h
    rcases hbad with hbad | hbad
    · rw [hbad] at h1
      cases h1
    · exact ne_nowHHMM_of_not_canon t _ hbad h2
  unfold detectDue
  cases hb : bad.enabled <;>
    simp [List.filter_append, List.filter_cons, hb, hdue]

/-- Witness for C7: a `"Funday"` row between two well-formed rows changes
nothing about how the rest is evaluated. -/
theorem malformed_rows_skipped_witness :
    DAY_MAP (pyStrip (schedFunday.day_of_week.getD "")) = none ∧
    detectDue tick0 ([schedMon] ++ schedFunday :: [schedMon2])
      = detectDue tick0 [schedMon] ++ detectDue tick0 [schedMon2] :=
  ⟨by decide,
    malformed_rows_skipped tick0 [schedMon] [schedMon2] schedFunday
      (Or.inl (by decide))⟩

/-- C9: a non-empty `last_called_at` that does not parse as an ISO timestamp
makes `_already_called_today` return `False` (the parse failure is
swallowed), so the schedule counts as never having fired today and is
included whenever its day and time match now. -/
theorem unparseable_last_fired_eligible (t : Nat) (table : List Schedule)
    (s : Schedule) (lca : String)
    (hlca : s.last_called_at = some lca)
    (hne : lca ≠ "")
    (hbadparse : parseIso (replaceAll lca 'Z' "+00:00") = none)
    (hmem : s ∈ table) (hen : s.enabled = true)
    (hday : DAY_MAP (pyStrip (s.day_of_week.getD "")) = some (ukDow t))
    (htime : pyStrip (s.call_time.getD "") = nowHHMM t) :
    already_called_today s.last_called_at (ukDate t) = false ∧
    s ∈ detectDue t table := by
  have hac : already_called_today s.last_called_at (ukDate t) = false := by
    rw [hlca]
    show (if lca = "" then false
      else
        match parseIso (replaceAll lca 'Z' "+00:00") with
        | none => false
        | some u => decide (ukDate u = ukDate t)) = false
    rw [if_neg hne, hbadparse]
  exact ⟨hac, (mem_detectDue t table s).mpr ⟨hmem, hen, hday, htime, hac⟩⟩

/-- Witness for C9: `"not-a-timestamp"` leaves the schedule eligible at a
matching instant. -/
theorem unparseable_last_fired_eligible_witness :
    schedGarbage.last_called_at = some "not-a-timestamp" ∧
    parseIso (replaceAll "not-a-timestamp" 'Z' "+00:00") = none ∧
    already_called_today schedGarbage.last_called_at (ukDate tick0) = false ∧
    schedGarbage ∈ detectDue tick0 [schedGarbage] := by
  have h := unparseable_last_fired_eligible tick0 [schedGarbage] schedGarbage
    "not-a-timestamp" rfl (by decide) (by decide)
    (List.mem_singleton.mpr rfl) rfl (by decide) (by decide)
  exact ⟨rfl, by decide, h.1, h.2⟩

/-- C10 counterexample: the claim says a stored call time that is not in the
exact canonical zero-padded `HH:MM` form is never detected as due, because
matching is raw string equality.  But the source strips the stored value
first, so `" 09:00"` — not canonical, it carries a leading space — is
detected as due during the 09:00 minute. -/
theorem raw_time_equality_refuted :
    schedPadded.call_time = some " 09:00" ∧
    isCanonHHMM " 09:00" = false ∧
    schedPadded ∈ detectDue tick0 [schedPadded] :=
  ⟨rfl, by decide, by decide⟩

/-- C10 (amended): time matching is string equality of the
whitespace-stripped stored value against the zero-padded `HH:MM` rendering of
now; a stored time whose stripped form is not the canonical rendering of any
valid wall-clock minute (such as `"9:00"` or `"09:00:00"`) compares unequal
at every minute of every day, so such a schedule is never due.  The `HH:MM`
parsing helper (`_parse_hhmm`) plays no part: `isDue`/`detectDue` never
invoke `parse_hhmm`. -/
theorem non_canonical_time_never_due (t : Nat) (table : List Schedule)
    (s : Schedule)
    (h : isCanonHHMM (pyStrip (s.call_time.getD "")) = false) :
    s ∉ detectDue t table := by
  intro hmem
  exact ne_nowHHMM_of_not_canon t _ h
    ((mem_detectDue t table s).mp hmem).2.2.2.1

/-- Witness for the amended C10: a schedule stored as `"9:00"` is not due
even at 09:00 on a matching day. -/
theorem non_canonical_time_never_due_witness :
    isCanonHHMM (pyStrip (schedNine.call_time.getD "")) = false ∧
    schedNine ∉ detectDue tick0 [schedNine] :=
  ⟨by decide,
    non_canonical_time_never_due tick0 [schedNine] schedNine (by decide)⟩

/-- C2 counterexample: at `tick0` both `schedMon` (user 7) and `schedMon2`
(user 8) are due; the user fetch fails for user 7 and succeeds for user 8.
The claim says the remaining due schedule still gets its call-log append and
mark-fired — but the source has no per-schedule exception handler, so the
tick aborts and the store is left completely unchanged: `schedMon2` gets
neither a log entry nor a `last_called_at` update. -/
theorem per_schedule_isolation_refuted :
    detectDue tick0 tickState0.call_schedule = [schedMon, schedMon2] ∧
    fetchOnly8 schedMon.user_id = none ∧
    fetchOnly8 schedMon2.user_id = some userBeryl ∧
    (run_scheduler_tick fetchOnly8 tick0 tickState0).state = tickState0 ∧
    (run_scheduler_tick fetchOnly8 tick0 tickState0).state.call_logs = [] :=
  ⟨by decide, by decide, by decide, by decide, by decide⟩

/-- C2 (amended): a failure while processing one due schedule aborts the
rest of that tick: the due schedules processed before the failure keep their
call-log append and mark-fired, the failing schedule and every due schedule
after it get neither (so they stay eligible at the next matching minute),
and the tick's exception is caught by the outer `startup` loop, which always
proceeds to the next tick. -/
theorem fetch_failure_aborts_tick (fetchUser : Nat → Option User) (t : Nat)
    (pre : List Schedule) (f : Schedule) (post : List Schedule)
    (st : TickState)
    (hpre : ∀ s ∈ pre, (fetchUser s.user_id).isSome)
    (hf : fetchUser f.user_id = none) :
    (processDue fetchUser t (pre ++ f :: post) st).state
        = pre.foldl (fireOne fetchUser t) st ∧
    (processDue fetchUser t (pre ++ f :: post) st).ok = false ∧
    ∀ (ts : List Nat) (t1 : Nat) (st1 : TickState),
      startup_loop fetchUser (t1 :: ts) st1
        = startup_loop fetchUser ts (run_scheduler_tick fetchUser t1 st1).state := by
  obtain ⟨h1, h2⟩ := processDue_fail_mid fetchUser t pre f post st hpre hf
  exact ⟨h1, h2, fun _ _ _ => rfl⟩

/-- Witness for the amended C2: with `schedMon2` (fetch succeeds) before
`schedMon` (fetch fails), the tick applies exactly `schedMon2`'s effects and
reports the abort. -/
theorem fetch_failure_aborts_tick_witness :
    (∀ s ∈ [schedMon2], (fetchOnly8 s.user_id).isSome) ∧
    fetchOnly8 schedMon.user_id = none ∧
    (processDue fetchOnly8 tick0 ([schedMon2] ++ schedMon :: []) tickState0).state
        = [schedMon2].foldl (fireOne fetchOnly8 tick0) tickState0 ∧
    (processDue fetchOnly8 tick0 ([schedMon2] ++ schedMon :: []) tickState0).ok
        = false := by
  have h := fetch_failure_aborts_tick fetchOnly8 tick0 [schedMon2] schedMon []
    tickState0 (by decide) (by decide)
  exact ⟨by decide, by decide, h.1, h.2.1⟩

/-- C4: whatever the `SpeechResult` field holds and however the reply
generator and the synthesizer behave (success or failure), the turn endpoint
returns HTTP 200 with an `application/xml` instruction document — never an
HTTP failure status. -/
theorem turn_endpoint_never_fails (speech_result openai_result
    tts_result : Option String) :
    (twilio_voice_turn speech_result openai_result tts_result).resp.status
        = 200 ∧
    (twilio_voice_turn speech_result openai_result tts_result).resp.media_type
        = "application/xml" := by
  unfold twilio_voice_turn
  by_cases h : pyStrip (speech_result.getD "") = ""
  · rw [if_pos h]
    exact ⟨rfl, rfl⟩
  · rw [if_neg h]
    cases tts_result <;> exact ⟨rfl, rfl⟩

/-- C5: when the `SpeechResult` field is empty or whitespace-only after
stripping, the turn endpoint returns the retry-apology document (which
redirects to `/twilio/voice/inbound`) and makes no call to the reply
generator or the synthesizer. -/
theorem empty_speech_short_circuits (speech_result openai_result
    tts_result : Option String)
    (h : pyStrip (speech_result.getD "") = "") :
    twilio_voice_turn speech_result openai_result tts_result
      = ⟨⟨200, "application/xml", emptySpeechTwiml⟩, []⟩ := by
  unfold twilio_voice_turn
  rw [if_pos h]

/-- Witness for C5: a whitespace-only `SpeechResult`. -/
theorem empty_speech_short_circuits_witness :
    pyStrip ((some "   " : Option String).getD "") = "" ∧
    twilio_voice_turn (some "   ") (some "ignored") (some "ignored")
      = ⟨⟨200, "application/xml", emptySpeechTwiml⟩, []⟩ :=
  ⟨by decide,
    empty_speech_short_circuits (some "   ") (some "ignored") (some "ignored")
      (by decide)⟩

/-- C6 counterexample: the claim says the synthesis-failure fallback speaks
the reply with the markup-breaking characters `&`, `<`, `>` removed.  The
source instead replaces `&` with `"and"` (and removes only `<` and `>`): for
the reply `"tea & cake"` the emitted document says `"tea and cake"`, not the
`&`-removed text. -/
theorem markup_removed_claim_refuted :
    (twilio_voice_turn (some "hi") (some "tea & cake") none).resp.body
        = sayFallbackTwiml "tea and cake" ∧
    (twilio_voice_turn (some "hi") (some "tea & cake") none).resp.body
        ≠ sayFallbackTwiml (specRemovedMarkup "tea & cake") :=
  ⟨by decide, by decide⟩

/-- C6 (amended): when synthesis fails (and the inbound speech was
non-empty), the endpoint emits the `<Say>` fallback document built from the
reply text with `&` replaced by `"and"` and `<`, `>` removed — so the spoken
text contains none of the markup-breaking characters — and that document
redirects to the inbound greeting endpoint instead of gathering again; the
synthesis call it attempted carried the 30-second timeout. -/
theorem say_fallback_on_synth_failure (speech_result
    openai_result : Option String)
    (h : pyStrip (speech_result.getD "") ≠ "") :
    (twilio_voice_turn speech_result openai_result none).resp
        = ⟨200, "application/xml",
            sayFallbackTwiml (reply_for_say (reply_text_for openai_result))⟩ ∧
    (∀ x ∈ (reply_for_say (reply_text_for openai_result)).toList,
      x ≠ '&' ∧ x ≠ '<' ∧ x ≠ '>') ∧
    (twilio_voice_turn speech_result openai_result none).calls
        = [⟨Dep.replyGen, none⟩, ⟨Dep.synth, some 30⟩] := by
  refine ⟨?_, reply_for_say_no_markup _, ?_⟩ <;>
    · unfold twilio_voice_turn
      rw [if_neg h]

/-- Witness for the amended C6 at the reply `"tea & cake"`. -/
theorem say_fallback_on_synth_failure_witness :
    pyStrip ((some "hi" : Option String).getD "") ≠ "" ∧
    (twilio_voice_turn (some "hi") (some "tea & cake") none).resp
        = ⟨200, "application/xml",
            sayFallbackTwiml (reply_for_say (reply_text_for (some "tea & cake")))⟩ :=
  ⟨by decide,
    (say_fallback_on_synth_failure (some "hi") (some "tea & cake")
      (by decide)).1⟩

/-- C8 counterexample: the claim says every outbound call to the reply
generator is bounded by a fixed 30-second timeout, but the source constructs
the OpenAI client and issues the reply call with no explicit timeout: the
recorded reply-generator call carries no timeout value. -/
theorem reply_gen_timeout_claim_refuted :
    (twilio_voice_turn (some "hello") (some "hi there") (some "mp3")).calls
        = [⟨Dep.replyGen, none⟩, ⟨Dep.synth, some 30⟩] ∧
    (none : Option Nat) ≠ some 30 :=
  ⟨by decide, by decide⟩

/-- C8 (amended): the synthesizer calls made by the turn endpoint carry the
fixed 30-second timeout, the reply-generator calls carry no explicit timeout
(the source sets none), and the scheduler tick never calls the reply
generator or the synthesizer — those calls happen only in request-handling
paths. -/
theorem timeout_discipline (speech_result openai_result
    tts_result : Option String)
    (fetchUser : Nat → Option User) (t : Nat) (st : TickState) :
    (∀ c ∈ (twilio_voice_turn speech_result openai_result tts_result).calls,
      (c.dep = Dep.synth → c.timeout = some 30) ∧
      (c.dep = Dep.replyGen → c.timeout = none)) ∧
    (∀ c ∈ (run_scheduler_tick fetchUser t st).calls,
      c.dep ≠ Dep.replyGen ∧ c.dep ≠ Dep.synth) := by
  refine ⟨?_, tick_calls_store_only fetchUser t st⟩
  intro c hc
  unfold twilio_voice_turn at hc
  by_cases h : pyStrip (speech_result.getD "") = ""
  · rw [if_pos h] at hc
    cases hc
  · rw [if_neg h] at hc
    have hc2 : c ∈ [(⟨Dep.replyGen, none⟩ : ExtCall), ⟨Dep.synth, some 30⟩] := by
      cases tts_result <;> exact hc
    simp only [List.mem_cons, List.not_mem_nil, or_false] at hc2
    rcases hc2 with hc2 | hc2 <;> subst hc2
    · exact ⟨(fun hd => nomatch hd), fun _ => rfl⟩
    · exact ⟨(fun _ => rfl), fun hd => nomatch hd⟩

/-- Witness for the amended C8: the synthesis call of a concrete successful
turn carries the 30-second timeout, and the schedule-store fetch of a
concrete tick is neither a generator nor a synthesizer call. -/
theorem timeout_discipline_witness :
    (⟨Dep.synth, some 30⟩ : ExtCall)
        ∈ (twilio_voice_turn (some "hello") (some "ok") (some "m")).calls ∧
    (⟨Dep.synth, some 30⟩ : ExtCall).timeout = some 30 ∧
    (⟨Dep.scheduleStore, none⟩ : ExtCall)
        ∈ (run_scheduler_tick fetchOnly8 tick0 tickState0).calls ∧
    (⟨Dep.scheduleStore, none⟩ : ExtCall).dep ≠ Dep.replyGen := by
  have hm1 : (⟨Dep.synth, some 30⟩ : ExtCall)
      ∈ (twilio_voice_turn (some "hello") (some "ok") (some "m")).calls := by
    decide
  have hm2 : (⟨Dep.scheduleStore, none⟩ : ExtCall)
      ∈ (run_scheduler_tick fetchOnly8 tick0 tickState0).calls := by
    decide
  exact ⟨hm1,
    ((timeout_discipline (some "hello") (some "ok") (some "m") fetchOnly8 tick0
        tickState0).1 _ hm1).1 rfl,
    hm2,
    ((timeout_discipline (some "hello") (some "ok") (some "m") fetchOnly8 tick0
        tickState0).2 _ hm2).1⟩
